import Mathlib

/-!
Verification of the license-dashboard client (src/src/App.js).

JavaScript strings are modelled as lists of characters; the relevant
fragment of the runtime (lower-casing, substring search, Date parsing,
JSON serialisation, fetch requests and React state updates) is embedded
shallowly as pure Lean functions, translated clause by clause from the
source. Theorems C1 to C10 settle the frozen claims about this code.
-/

/-- ASCII model of the JavaScript method String.prototype.toLowerCase,
applied character by character. -/
def toLowerChar (c : Char) : Char :=
  if 'A' ≤ c ∧ c ≤ 'Z' then Char.ofNat (c.toNat + 32) else c

/-- Lower-case an entire JS string (list of characters). -/
def lowerStr (s : List Char) : List Char := s.map toLowerChar

/-- Does the string begin with the given pattern (helper for substring
search, mirroring the scan JS String.prototype.includes performs). -/
def leadsWith : List Char → List Char → Bool
  | _, [] => true
  | [], _ :: _ => false
  | a :: s, b :: p => a == b && leadsWith s p

/-- Model of JS String.prototype.includes: does some position of the
first string start with the second string. -/
def hasSub : List Char → List Char → Bool
  | [], p => p.isEmpty
  | a :: s, p => leadsWith (a :: s) p || hasSub s p

/-- A license record as consumed by the dashboard: the four fields the
client reads (id, status, optional hwid, expire time left abstract
here). Fields id and status are strings; hwid is absent or a string. -/
structure License where
  id : List Char
  hwid : Option (List Char)
  status : List Char
deriving DecidableEq, Repr

/-- The filter predicate of filteredLicenses (App.js lines 282-286),
translated clause by clause: id clause, hwid clause guarded by the JS
truthiness of hwid (absent or empty string is falsy), status clause. -/
def codeMatch (t : List Char) (r : License) : Bool :=
  hasSub (lowerStr r.id) (lowerStr t) ||
  (match r.hwid with
   | some h => !h.isEmpty && hasSub (lowerStr h) (lowerStr t)
   | none => false) ||
  hasSub (lowerStr r.status) (lowerStr t)

/-- filteredLicenses (App.js line 282): licenses.filter over the
predicate above. -/
def filteredLicenses (licenses : List License) (searchTerm : List Char) :
    List License :=
  licenses.filter (codeMatch searchTerm)

/-- The inclusion rule exactly as the spec words it: the record is kept
iff the search term is a case-insensitive substring of id, or of hwid
when present, or of status. -/
def specMatch (t : List Char) (r : License) : Bool :=
  hasSub (lowerStr r.id) (lowerStr t) ||
  (match r.hwid with
   | some h => hasSub (lowerStr h) (lowerStr t)
   | none => false) ||
  hasSub (lowerStr r.status) (lowerStr t)

theorem leadsWith_nil (s : List Char) : leadsWith s [] = true := by
  cases s <;> rfl

theorem hasSub_nil (s : List Char) : hasSub s [] = true := by
  cases s <;> simp [hasSub, leadsWith_nil, List.isEmpty]

theorem leadsWith_length {s p : List Char} (h : leadsWith s p = true) :
    p.length ≤ s.length := by
  induction p generalizing s with
  | nil => simp
  | cons b p ih =>
    cases s with
    | nil => simp [leadsWith] at h
    | cons a s =>
      simp only [leadsWith, Bool.and_eq_true] at h
      simpa using Nat.succ_le_succ (ih h.2)

theorem hasSub_length {s p : List Char} (h : hasSub s p = true) :
    p.length ≤ s.length := by
  induction s with
  | nil =>
    simp only [hasSub, List.isEmpty_iff] at h
    simp [h]
  | cons a s ih =>
    simp only [hasSub, Bool.or_eq_true] at h
    rcases h with h | h
    · exact leadsWith_length h
    · exact Nat.le_succ_of_le (ih h)

theorem lowerStr_length (s : List Char) : (lowerStr s).length = s.length :=
  List.length_map _ _

theorem codeMatch_eq_specMatch (t : List Char) (r : License) :
    codeMatch t r = specMatch t r := by
  unfold codeMatch specMatch
  cases hw : r.hwid with
  | none => rfl
  | some h =>
    cases h with
    | cons c h => simp
    | nil =>
      cases t with
      | nil => simp [hasSub_nil, lowerStr]
      | cons c t => simp [hasSub, lowerStr, List.isEmpty]

theorem codeMatch_empty (r : License) : codeMatch [] r = true := by
  unfold codeMatch
  simp [lowerStr, hasSub_nil]

/-- C1: for every license list L and search term t, the filtered view is
exactly L filtered by the spec predicate (id, hwid when present, or
status contains t case-insensitively), it is an order-preserving
subsequence of L, and the empty search term leaves L unchanged. The
embedding is pure, so the underlying list is never mutated. -/
theorem c1_filteredLicenses_spec (L : List License) (t : List Char) :
    filteredLicenses L t = L.filter (specMatch t) ∧
    List.Sublist (filteredLicenses L t) L ∧
    filteredLicenses L [] = L := by
  refine ⟨?_, ?_, ?_⟩
  · unfold filteredLicenses
    exact List.filter_congr (fun r _ => codeMatch_eq_specMatch t r)
  · exact List.filter_sublist L
  · unfold filteredLicenses
    exact List.filter_eq_self.mpr (fun r _ => codeMatch_empty r)

/-- The shapes an expire_time value can take at runtime, as the client
distinguishes them: a parsable string or number (new Date yields the
instant ms), a present but unparsable string (new Date yields an
Invalid Date, i.e. NaN time), a Firestore timestamp object whose toDate
call yields the instant ms, or a present object whose toDate call
throws. Absence (any falsy value) is modelled by Option.none around
this type. -/
inductive JSDateVal
  | validStr (ms : Int)
  | invalidStr
  | tsObj (ms : Int)
  | badObj
deriving DecidableEq, Repr

/-- Milliseconds per day, the divisor 1000 * 60 * 60 * 24 in App.js. -/
def msPerDay : Int := 86400000

/-- Math.ceil of the exact quotient a / b for b positive, as used on
the millisecond difference in getDuration. -/
def jsCeilDiv (a b : Int) : Int := -((-a).fdiv b)

/-- The try-block of formatDate (App.js 253-259) on a present value:
the locale renderer loc stands for toLocaleString on a valid Date; an
Invalid Date renders as the string Invalid Date; a throwing toDate is
the error case caught below. -/
def formatDateBody (loc : Int → String) : JSDateVal → Except Unit String
  | .validStr ms => .ok (loc ms)
  | .invalidStr => .ok "Invalid Date"
  | .tsObj ms => .ok (loc ms)
  | .badObj => .error ()

/-- formatDate (App.js 251-264): falsy input gives N/A, otherwise the
try-block runs and a thrown exception is caught and rendered as the
placeholder Invalid Date. -/
def formatDate (loc : Int → String) (timestamp : Option JSDateVal) : String :=
  match timestamp with
  | none => "N/A"
  | some v =>
    match formatDateBody loc v with
    | .ok s => s
    | .error _ => "Invalid Date"

/-- The expireTime.getTime() value computed inside getDuration for a
present input: ok (some ms) for a parsable value, ok none for a NaN
time, error when the toDate call throws. -/
def jsDateMs : JSDateVal → Except Unit (Option Int)
  | .validStr ms => .ok (some ms)
  | .invalidStr => .ok none
  | .tsObj ms => .ok (some ms)
  | .badObj => .error ()

/-- The day count getDuration embeds in its result string for a
parsable expiry: ceil of the millisecond difference over one day, and
the ternary diffDays > 0 ? diffDays : 0. -/
def getDurationDays (ms now : Int) : Int :=
  if jsCeilDiv (ms - now) msPerDay > 0 then jsCeilDiv (ms - now) msPerDay else 0

/-- getDuration (App.js 266-280): falsy input gives N/A; a thrown
toDate is caught and gives N/A; a NaN time makes diffDays NaN, the
comparison NaN > 0 is false and the ternary yields 0 days; otherwise
the floored ceiling day count is rendered. -/
def getDuration (timestamp : Option JSDateVal) (now : Int) : String :=
  match timestamp with
  | none => "N/A"
  | some v =>
    match jsDateMs v with
    | .error _ => "N/A"
    | .ok none => "0 days"
    | .ok (some ms) => toString (getDurationDays ms now) ++ " days"

theorem getDurationDays_eq_max (ms now : Int) :
    getDurationDays ms now = max (jsCeilDiv (ms - now) msPerDay) 0 := by
  unfold getDurationDays
  split <;> omega

theorem jsCeilDiv_mono {a b : Int} (c : Int) (hc : 0 < c) (h : a ≤ b) :
    jsCeilDiv a c ≤ jsCeilDiv b c := by
  unfold jsCeilDiv
  have hd : (-b).fdiv c ≤ (-a).fdiv c := by
    rw [Int.fdiv_eq_ediv _ hc.le, Int.fdiv_eq_ediv _ hc.le]
    exact Int.ediv_le_ediv hc (by omega)
  omega

/-- C2 counterexample: a present but unparsable expire_time makes
getDuration return the string 0 days, not N/A as the claim states: the
NaN day count fails the diffDays > 0 test and no exception is thrown
for new Date of an unparsable string. -/
theorem c2_counterexample :
    getDuration (some JSDateVal.invalidStr) 0 = "0 days" ∧
    getDuration (some JSDateVal.invalidStr) 0 ≠ "N/A" := by
  constructor
  · rfl
  · decide

/-- C2 amended: getDuration returns the ceiling of the millisecond
difference over one day, floored at 0, for any parsable expire_time
(string or timestamp object); it returns N/A when expire_time is
absent or when its toDate call throws; but a present unparsable value
yields the string 0 days, because NaN arithmetic makes the positivity
test false instead of raising an exception. -/
theorem c2_getDuration_spec (ms now : Int) :
    getDuration none now = "N/A" ∧
    getDuration (some JSDateVal.badObj) now = "N/A" ∧
    getDuration (some (JSDateVal.validStr ms)) now =
      toString (max (jsCeilDiv (ms - now) msPerDay) 0) ++ " days" ∧
    getDuration (some (JSDateVal.tsObj ms)) now =
      toString (max (jsCeilDiv (ms - now) msPerDay) 0) ++ " days" ∧
    getDuration (some JSDateVal.invalidStr) now = "0 days" := by
  refine ⟨rfl, rfl, ?_, ?_, rfl⟩ <;>
    simp [getDuration, jsDateMs, getDurationDays_eq_max]

/-- C4: formatDate returns N/A for an absent expire_time, the locale
rendering of the parsed instant for a parsable ISO string or timestamp
object, and the placeholder Invalid Date for an unparsable string or a
throwing timestamp object; every branch is caught, so the function is
total and never propagates an exception. -/
theorem c4_formatDate_spec (loc : Int → String) (ms : Int) :
    formatDate loc none = "N/A" ∧
    formatDate loc (some (JSDateVal.validStr ms)) = loc ms ∧
    formatDate loc (some (JSDateVal.tsObj ms)) = loc ms ∧
    formatDate loc (some JSDateVal.invalidStr) = "Invalid Date" ∧
    formatDate loc (some JSDateVal.badObj) = "Invalid Date" :=
  ⟨rfl, rfl, rfl, rfl, rfl⟩

/-- C8: for a fixed parsable expire_time, the day count of getDuration
is deterministic (recomputing at the same instant gives the same
value), never negative, and non-increasing as the current time
advances. -/
theorem c8_getDurationDays_monotone (ms now later : Int) (h : now ≤ later) :
    getDurationDays ms now = getDurationDays ms now ∧
    0 ≤ getDurationDays ms now ∧
    getDurationDays ms later ≤ getDurationDays ms now := by
  have hmono : jsCeilDiv (ms - later) msPerDay ≤ jsCeilDiv (ms - now) msPerDay :=
    jsCeilDiv_mono msPerDay (by norm_num [msPerDay]) (by omega)
  refine ⟨rfl, ?_, ?_⟩
  · rw [getDurationDays_eq_max]; exact le_max_right _ _
  · rw [getDurationDays_eq_max, getDurationDays_eq_max]
    omega

/-- C8 witness: the monotonicity theorem applied at a concrete expiry
and two concrete instants one day apart. -/
theorem c8_witness :
    getDurationDays 172800000 0 = getDurationDays 172800000 0 ∧
    0 ≤ getDurationDays 172800000 0 ∧
    getDurationDays 172800000 86400000 ≤ getDurationDays 172800000 0 :=
  c8_getDurationDays_monotone 172800000 0 86400000 (by decide)

/-- A JavaScript value that can sit in the days field of the create
body: the number 30 the form starts with, or the raw string an input
event delivers. -/
inductive JSVal
  | num (n : Int)
  | str (s : String)
deriving DecidableEq, Repr

/-- Is the value a JSON number. -/
def JSVal.isNum : JSVal → Bool
  | .num _ => true
  | .str _ => false

/-- JSON rendering of a days value. -/
def renderJSVal : JSVal → String
  | .num n => toString n
  | .str s => "\"" ++ s ++ "\""

/-- JSON.stringify of the object with a single days field, as built by
the create dispatch. -/
def stringifyDays (v : JSVal) : String :=
  "\x7b\"days\":" ++ renderJSVal v ++ "\x7d"

/-- An HTTP request as issued by fetch in handleAction. -/
structure HttpRequest where
  url : String
  method : String
  headers : List (String × String)
  body : Option String
deriving DecidableEq, Repr

/-- The backend answer to one request: a 2xx response, or a non-2xx
response whose JSON body carries a truthy message field (some) or not
(none). -/
inductive BackendResponse
  | ok
  | err (message : Option String)
deriving DecidableEq, Repr

/-- The Dashboard state touched by handleAction: the license list, the
error banner, the modal flags and the refresh toggle whose change
refires the fetch effect. -/
structure DashState where
  licenses : List License
  error : Option String
  showModal : Bool
  modalType : Option String
  modalData : Option String
  refresh : Bool
deriving DecidableEq, Repr

/-- The switch statement of handleAction (App.js 201-216): the URL for
each of the four known actions, none for the default branch. -/
def buildActionUrl (baseUrl action key : String) : Option String :=
  if action = "create" then some (baseUrl ++ "/create")
  else if action = "delete" then some (baseUrl ++ "/delete/" ++ key)
  else if action = "reset-hwid" then some (baseUrl ++ "/reset-hwid/" ++ key)
  else if action = "toggle-status" then some (baseUrl ++ "/toggle-status/" ++ key)
  else none

/-- The fetch call of handleAction (App.js 219-226): POST with the two
fixed headers; the body is the stringified data when data is nonempty,
null otherwise. -/
def actionRequest (apiKey url : String) (data : Option JSVal) : HttpRequest :=
  { url := url
    method := "POST"
    headers := [("Content-Type", "application/json"), ("X-API-KEY", apiKey)]
    body := data.map stringifyDays }

/-- handleAction (App.js 196-237): clear the error, pick the URL (the
default branch returns without a request), issue the single request,
then either toggle refresh and close the modal on a 2xx response, or
set the error to the message field of the JSON error body with the
generic fallback when that field is absent. -/
def handleAction (baseUrl apiKey action key : String) (data : Option JSVal)
    (resp : BackendResponse) (st : DashState) : DashState × Option HttpRequest :=
  let st1 := { st with error := none }
  match buildActionUrl baseUrl action key with
  | none => (st1, none)
  | some url =>
    let req := actionRequest apiKey url data
    match resp with
    | .ok => ({ st1 with refresh := !st1.refresh, showModal := false }, some req)
    | .err m =>
      ({ st1 with error := some (m.getD ("Failed to perform action: " ++ action)) },
       some req)

/-- Initial state of the days field of CreateKeyModal (App.js 403). -/
def createKeyInitialDays : JSVal := .num 30

/-- The onChange handler of the days input (App.js 419) stores the raw
event value, which the DOM delivers as a string. -/
def createKeyOnChange (inputValue : String) : JSVal := .str inputValue

/-- The Dashboard wiring of the create modal (App.js 373): submitting
the form dispatches handleAction for create with a null key and the
days value as data. The null key is unused by the create URL and is
modelled as the empty string. -/
def createRequest (baseUrl apiKey : String) (days : JSVal)
    (resp : BackendResponse) (st : DashState) : DashState × Option HttpRequest :=
  handleAction baseUrl apiKey "create" "" (some days) resp st

/-- C3: for each of the four known actions, a 2xx response makes
handleAction close any open modal and flip the refresh toggle (whose
change refires the license fetch effect); a non-2xx response with a
message field in its JSON body surfaces exactly that message and
leaves the modal flag untouched, and a non-2xx response without one
surfaces the generic fallback, again without closing the modal. -/
theorem c3_handleAction_outcomes (baseUrl apiKey action key : String)
    (data : Option JSVal) (st : DashState) (m : String)
    (h : action = "create" ∨ action = "delete" ∨ action = "reset-hwid" ∨
      action = "toggle-status") :
    ((handleAction baseUrl apiKey action key data .ok st).1.showModal = false ∧
     (handleAction baseUrl apiKey action key data .ok st).1.refresh = !st.refresh) ∧
    ((handleAction baseUrl apiKey action key data (.err (some m)) st).1.error = some m ∧
     (handleAction baseUrl apiKey action key data (.err (some m)) st).1.showModal =
       st.showModal) ∧
    ((handleAction baseUrl apiKey action key data (.err none) st).1.error =
       some ("Failed to perform action: " ++ action) ∧
     (handleAction baseUrl apiKey action key data (.err none) st).1.showModal =
       st.showModal) := by
  rcases h with h | h | h | h <;> subst h <;>
    simp [handleAction, buildActionUrl, Option.getD]

/-- C3 witness: the outcome theorem applied to the create action with
the backend message quota exceeded, at a concrete dashboard state. -/
theorem c3_witness :
    ((handleAction "b" "admin" "create" "k" none .ok
        ⟨[], none, true, some "create", none, false⟩).1.showModal = false ∧
     (handleAction "b" "admin" "create" "k" none .ok
        ⟨[], none, true, some "create", none, false⟩).1.refresh = !false) ∧
    ((handleAction "b" "admin" "create" "k" none (.err (some "quota exceeded"))
        ⟨[], none, true, some "create", none, false⟩).1.error =
          some "quota exceeded" ∧
     (handleAction "b" "admin" "create" "k" none (.err (some "quota exceeded"))
        ⟨[], none, true, some "create", none, false⟩).1.showModal = true) ∧
    ((handleAction "b" "admin" "create" "k" none (.err none)
        ⟨[], none, true, some "create", none, false⟩).1.error =
          some ("Failed to perform action: " ++ "create") ∧
     (handleAction "b" "admin" "create" "k" none (.err none)
        ⟨[], none, true, some "create", none, false⟩).1.showModal = true) :=
  c3_handleAction_outcomes "b" "admin" "create" "k" none
    ⟨[], none, true, some "create", none, false⟩ "quota exceeded" (Or.inl rfl)

theorem buildActionUrl_of_known (baseUrl key : String) {action : String}
    (h : action = "create" ∨ action = "delete" ∨ action = "reset-hwid" ∨
      action = "toggle-status") :
    ∃ url, buildActionUrl baseUrl action key = some url := by
  rcases h with h | h | h | h <;> subst h
  · exact ⟨baseUrl ++ "/create", by simp [buildActionUrl]⟩
  · exact ⟨baseUrl ++ "/delete/" ++ key, by simp [buildActionUrl]⟩
  · exact ⟨baseUrl ++ "/reset-hwid/" ++ key, by simp [buildActionUrl]⟩
  · exact ⟨baseUrl ++ "/toggle-status/" ++ key, by simp [buildActionUrl]⟩

theorem handleAction_snd_of_url (baseUrl apiKey action key url : String)
    (data : Option JSVal) (resp : BackendResponse) (st : DashState)
    (hurl : buildActionUrl baseUrl action key = some url) :
    (handleAction baseUrl apiKey action key data resp st).2 =
      some (actionRequest apiKey url data) := by
  cases resp <;> simp [handleAction, hurl]

theorem handleAction_err_sets_error (baseUrl apiKey action key url : String)
    (data : Option JSVal) (m : Option String) (st : DashState)
    (hurl : buildActionUrl baseUrl action key = some url) :
    (handleAction baseUrl apiKey action key data (.err m) st).1.error =
      some (m.getD ("Failed to perform action: " ++ action)) := by
  simp [handleAction, hurl]

/-- C6: every invocation of handleAction on one of the four known
actions issues exactly one request, carrying the X-API-KEY header with
the configured key and the Content-Type application/json header; there
is no retry, and a failed response surfaces as a set error value. -/
theorem c6_headers_no_retry (baseUrl apiKey action key : String)
    (data : Option JSVal) (resp : BackendResponse) (st : DashState)
    (h : action = "create" ∨ action = "delete" ∨ action = "reset-hwid" ∨
      action = "toggle-status") :
    (∃ req : HttpRequest,
      (handleAction baseUrl apiKey action key data resp st).2 = some req ∧
      ("X-API-KEY", apiKey) ∈ req.headers ∧
      ("Content-Type", "application/json") ∈ req.headers ∧
      req.method = "POST") ∧
    (∀ m : Option String, resp = .err m →
      ((handleAction baseUrl apiKey action key data resp st).1.error).isSome = true) := by
  obtain ⟨url, hurl⟩ := buildActionUrl_of_known baseUrl key h
  refine ⟨⟨actionRequest apiKey url data,
    handleAction_snd_of_url baseUrl apiKey action key url data resp st hurl,
    by simp [actionRequest], by simp [actionRequest], rfl⟩, ?_⟩
  rintro m rfl
  rw [handleAction_err_sets_error baseUrl apiKey action key url data m st hurl]
  rfl

/-- C6 witness: the header theorem applied to the delete action with a
failing backend, at a concrete state. -/
theorem c6_witness :
    (∃ req : HttpRequest,
      (handleAction "b" "admin" "delete" "k" none (.err none)
        ⟨[], none, false, none, none, false⟩).2 = some req ∧
      ("X-API-KEY", "admin") ∈ req.headers ∧
      ("Content-Type", "application/json") ∈ req.headers ∧
      req.method = "POST") ∧
    (∀ m : Option String, BackendResponse.err none = .err m →
      ((handleAction "b" "admin" "delete" "k" none (.err none)
        ⟨[], none, false, none, none, false⟩).1.error).isSome = true) :=
  c6_headers_no_retry "b" "admin" "delete" "k" none (.err none)
    ⟨[], none, false, none, none, false⟩ (Or.inr (Or.inl rfl))

/-- C9: an action string outside the four known ones falls to the
default branch of the switch after setError null has already run: no
request is issued and the returned state differs from the input state
only in the cleared error field. -/
theorem c9_unknown_action_frame (baseUrl apiKey action key : String)
    (data : Option JSVal) (resp : BackendResponse) (st : DashState)
    (h1 : action ≠ "create") (h2 : action ≠ "delete")
    (h3 : action ≠ "reset-hwid") (h4 : action ≠ "toggle-status") :
    handleAction baseUrl apiKey action key data resp st =
      ({ st with error := none }, none) := by
  simp [handleAction, buildActionUrl, h1, h2, h3, h4]

/-- C9 witness: an unknown action string at a concrete state with an
open modal, a stale error and a populated list: everything but the
error survives unchanged and no request is produced. -/
theorem c9_witness :
    handleAction "b" "admin" "refresh" "k" none .ok
      ⟨[⟨['x'], none, ['a']⟩], some "old", true, some "delete", some "k", true⟩ =
      (⟨[⟨['x'], none, ['a']⟩], none, true, some "delete", some "k", true⟩, none) :=
  c9_unknown_action_frame "b" "admin" "refresh" "k" none .ok
    ⟨[⟨['x'], none, ['a']⟩], some "old", true, some "delete", some "k", true⟩
    (by decide) (by decide) (by decide) (by decide)

theorem stringifyDays_str (s : String) :
    stringifyDays (JSVal.str s) = "\x7b\"days\":\"" ++ s ++ "\"\x7d" := by
  unfold stringifyDays renderJSVal
  rw [← String.append_assoc, ← String.append_assoc,
    String.append_assoc _ "\"" "\x7d"]
  rfl

/-- C5 counterexample: once the user has typed into the days field, the
stored value is the raw input string, so the submitted create body
carries a JSON string, not a number: with input 45 the issued request
body is the five characters days, colon, quote, 45, quote inside the
object braces, and the transmitted days value is not numeric. -/
theorem c5_counterexample :
    (createRequest "b" "admin" (createKeyOnChange "45") .ok
      ⟨[], none, true, some "create", none, false⟩).2 =
      some { url := "b/create", method := "POST",
             headers := [("Content-Type", "application/json"),
               ("X-API-KEY", "admin")],
             body := some "\x7b\"days\":\"45\"\x7d" } ∧
    JSVal.isNum (createKeyOnChange "45") = false := by
  exact ⟨rfl, rfl⟩

/-- C5 amended: the create operation sends a single POST to the create
path with JSON body consisting of the single days field holding the
current form value; the initial value is the number 30 (a positive
integer), but after any user edit the value is the raw input string,
so the JSON value is then a string whose numeric interpretation the
form constrains to at least 1, not a JSON number. -/
theorem c5_create_request (baseUrl apiKey s : String)
    (resp : BackendResponse) (st : DashState) :
    (createRequest baseUrl apiKey createKeyInitialDays resp st).2 =
      some { url := baseUrl ++ "/create", method := "POST",
             headers := [("Content-Type", "application/json"),
               ("X-API-KEY", apiKey)],
             body := some "\x7b\"days\":30\x7d" } ∧
    (createRequest baseUrl apiKey (createKeyOnChange s) resp st).2 =
      some { url := baseUrl ++ "/create", method := "POST",
             headers := [("Content-Type", "application/json"),
               ("X-API-KEY", apiKey)],
             body := some ("\x7b\"days\":\"" ++ s ++ "\"\x7d") } ∧
    createKeyInitialDays = JSVal.num 30 ∧
    JSVal.isNum createKeyInitialDays = true := by
  have hurl : buildActionUrl baseUrl "create" "" = some (baseUrl ++ "/create") := by
    simp [buildActionUrl]
  refine ⟨?_, ?_, rfl, rfl⟩
  · rw [createRequest, handleAction_snd_of_url baseUrl apiKey "create" ""
      (baseUrl ++ "/create") (some createKeyInitialDays) resp st hurl]
    rfl
  · rw [createRequest, handleAction_snd_of_url baseUrl apiKey "create" ""
      (baseUrl ++ "/create") (some (createKeyOnChange s)) resp st hurl]
    simp [actionRequest, createKeyOnChange, stringifyDays_str]

/-- The App component state relevant to screen selection (App.js
23-28): current user, loading flag, auth readiness and the fatal
configuration error value. -/
structure AppState where
  user : Option String
  loading : Bool
  isAuthReady : Bool
  authError : Option String
deriving DecidableEq, Repr

/-- The useState initial values of App. -/
def initialAppState : AppState :=
  { user := none, loading := true, isAuthReady := false, authError := none }

/-- The three outcomes of the initialization effect (App.js 30-73):
no configuration found in the environment or the Canvas fallback, an
exception thrown during Firebase initialization, or success with the
auth subscription installed. -/
inductive FirebaseEnv
  | missingConfig
  | initThrows
  | ready
deriving DecidableEq, Repr

/-- The synchronous state changes of the init effect: both failure
branches set the fatal error message, mark auth ready and stop
loading; on success the state is driven by auth callbacks instead. -/
def initEffect (env : FirebaseEnv) (st : AppState) : AppState :=
  match env with
  | .missingConfig =>
    { st with
      authError :=
        some "Firebase configuration is missing. Please check your environment variables.",
      isAuthReady := true, loading := false }
  | .initThrows =>
    { st with
      authError := some "Failed to initialize Firebase. Please check your configuration.",
      isAuthReady := true, loading := false }
  | .ready => st

/-- The events that can reach App after initialization: the
onAuthStateChanged callback delivering a user or none (sign-in and
sign-out both surface here). No handler in App ever writes
authError after the init effect. -/
inductive AppEvent
  | authChanged (u : Option String)
deriving DecidableEq, Repr

/-- The state update of the onAuthStateChanged callback (App.js
61-65). -/
def appStep (st : AppState) (e : AppEvent) : AppState :=
  match e with
  | .authChanged u => { st with user := u, isAuthReady := true, loading := false }

/-- The four screens App can render (App.js 83-109): the loading
placeholder, the full-screen fatal configuration error, and the two
main screens. -/
inductive Screen
  | loadingScreen
  | fatalConfigError (message : String)
  | dashboard
  | loginPage
deriving DecidableEq, Repr

/-- The render logic of App: loading wins, then a set authError
renders the full-screen error, then the user decides between
dashboard and login. -/
def render (st : AppState) : Screen :=
  if st.loading then .loadingScreen
  else
    match st.authError with
    | some m => .fatalConfigError m
    | none =>
      match st.user with
      | some _ => .dashboard
      | none => .loginPage

theorem appStep_authError (st : AppState) (e : AppEvent) :
    (appStep st e).authError = st.authError := by
  cases e; rfl

theorem foldl_appStep_authError (evs : List AppEvent) (st : AppState) :
    (evs.foldl appStep st).authError = st.authError := by
  induction evs generalizing st with
  | nil => rfl
  | cons e evs ih => rw [List.foldl_cons, ih, appStep_authError]

theorem foldl_appStep_loading (evs : List AppEvent) (st : AppState)
    (h : st.loading = false) : (evs.foldl appStep st).loading = false := by
  induction evs generalizing st with
  | nil => exact h
  | cons e evs ih => rw [List.foldl_cons]; exact ih _ (by cases e; rfl)

/-- C7: when the Firebase configuration is missing or initialization
throws, the app reaches a state with the fatal error set and loading
over, and no later auth event can leave it: after any sequence of
events the rendered screen is the full-screen configuration error and
never the login page, the dashboard, or the loading placeholder, so
the condition is terminal and is never presented as a login failure. -/
theorem c7_fatal_config_terminal (env : FirebaseEnv) (evs : List AppEvent)
    (h : env = FirebaseEnv.missingConfig ∨ env = FirebaseEnv.initThrows) :
    (∃ m, render (evs.foldl appStep (initEffect env initialAppState)) =
      Screen.fatalConfigError m) ∧
    render (evs.foldl appStep (initEffect env initialAppState)) ≠
      Screen.loginPage ∧
    render (evs.foldl appStep (initEffect env initialAppState)) ≠
      Screen.dashboard := by
  have hmsg : ∃ m, (initEffect env initialAppState).authError = some m := by
    rcases h with h | h <;> subst h <;> exact ⟨_, rfl⟩
  obtain ⟨m, hm⟩ := hmsg
  have hload : (initEffect env initialAppState).loading = false := by
    rcases h with h | h <;> subst h <;> rfl
  have h1 : (evs.foldl appStep (initEffect env initialAppState)).authError = some m :=
    (foldl_appStep_authError evs _).trans hm
  have h2 : (evs.foldl appStep (initEffect env initialAppState)).loading = false :=
    foldl_appStep_loading evs _ hload
  have hr : render (evs.foldl appStep (initEffect env initialAppState)) =
      Screen.fatalConfigError m := by
    unfold render
    rw [h2, h1]
    rfl
  refine ⟨⟨m, hr⟩, ?_, ?_⟩ <;> rw [hr] <;> simp

/-- C7 witness: the terminal-state theorem with the configuration
missing and a later sign-in event: the fatal screen persists. -/
theorem c7_witness :
    (∃ m, render ([AppEvent.authChanged (some "admin")].foldl appStep
      (initEffect FirebaseEnv.missingConfig initialAppState)) =
      Screen.fatalConfigError m) ∧
    render ([AppEvent.authChanged (some "admin")].foldl appStep
      (initEffect FirebaseEnv.missingConfig initialAppState)) ≠
      Screen.loginPage ∧
    render ([AppEvent.authChanged (some "admin")].foldl appStep
      (initEffect FirebaseEnv.missingConfig initialAppState)) ≠
      Screen.dashboard :=
  c7_fatal_config_terminal FirebaseEnv.missingConfig
    [AppEvent.authChanged (some "admin")] (Or.inl rfl)

/-- A license record as it actually arrives from the backend before
any validation: every field may be absent. The filter expression reads
id and status without a guard and only guards hwid. -/
structure RawLicense where
  id : Option (List Char)
  hwid : Option (List Char)
  status : Option (List Char)
deriving DecidableEq, Repr

/-- Evaluation of the status clause of the filter expression: reading
toLowerCase on a missing status throws (none). -/
def statusClause (t : List Char) (r : RawLicense) : Option Bool :=
  match r.status with
  | none => none
  | some st => some (hasSub (lowerStr st) (lowerStr t))

/-- Evaluation of the whole filter expression (App.js 283-285) on one
raw record, with JS short-circuiting: id is read unconditionally and
throws when absent; a truthy id match returns before hwid and status
are read; the hwid clause is guarded by the truthiness of hwid itself;
the status clause is reached only when the first two clauses are
falsy, and throws when status is absent. -/
def evalMatch (t : List Char) (r : RawLicense) : Option Bool :=
  match r.id with
  | none => none
  | some i =>
    if hasSub (lowerStr i) (lowerStr t) then some true
    else
      match r.hwid with
      | some h =>
        if !h.isEmpty && hasSub (lowerStr h) (lowerStr t) then some true
        else statusClause t r
      | none => statusClause t r

/-- Evaluation of licenses.filter over raw records: elements are
visited in order and the first thrown TypeError aborts the whole
filter (none). -/
def evalFilter (t : List Char) : List RawLicense → Option (List RawLicense)
  | [] => some []
  | r :: rs =>
    match evalMatch t r with
    | none => none
    | some b =>
      match evalFilter t rs with
      | none => none
      | some l => some (if b then r :: l else l)

theorem hasSub_false_of_longer {s p : List Char} (h : s.length < p.length) :
    hasSub s p = false := by
  cases hc : hasSub s p with
  | false => rfl
  | true => exact absurd (hasSub_length hc) (by omega)

/-- For one raw record, the filter expression evaluates without a
TypeError at every search term exactly when both id and status are
present. -/
theorem evalMatch_total_iff (r : RawLicense) :
    (∀ t, (evalMatch t r).isSome = true) ↔
    (r.id.isSome = true ∧ r.status.isSome = true) := by
  obtain ⟨id, hwid, status⟩ := r
  constructor
  · intro hall
    cases id with
    | none => simpa [evalMatch] using hall []
    | some i =>
      cases status with
      | some st => exact ⟨rfl, rfl⟩
      | none =>
        exfalso
        set hl : Nat := (match hwid with | some h => h.length | none => 0) with hhl
        set t : List Char := List.replicate (i.length + hl + 1) 'a' with ht
        have hlen : ∀ u : List Char, u.length < t.length →
            hasSub (lowerStr u) (lowerStr t) = false := by
          intro u hu
          exact hasSub_false_of_longer
            (by rw [lowerStr_length, lowerStr_length]; exact hu)
        have hid : hasSub (lowerStr i) (lowerStr t) = false :=
          hlen i (by simp [ht]; omega)
        have := hall t
        cases hwid with
        | none => simp [evalMatch, hid, statusClause] at this
        | some h =>
          have hhw : hasSub (lowerStr h) (lowerStr t) = false :=
            hlen h (by simp [ht, hhl]; omega)
          simp [evalMatch, hid, hhw, statusClause] at this
  · rintro ⟨h1, h2⟩ t
    obtain ⟨i, rfl⟩ := Option.isSome_iff_exists.mp h1
    obtain ⟨st, rfl⟩ := Option.isSome_iff_exists.mp h2
    cases hwid with
    | none => simp [evalMatch, statusClause]; split <;> simp
    | some h => simp [evalMatch, statusClause]; split <;> [skip; split] <;> simp

/-- The list-level filter evaluation succeeds at a term exactly when
every record evaluates without a TypeError at that term. -/
theorem evalFilter_total_iff (t : List Char) (L : List RawLicense) :
    (evalFilter t L).isSome = true ↔
    ∀ r ∈ L, (evalMatch t r).isSome = true := by
  induction L with
  | nil => simp [evalFilter]
  | cons r rs ih =>
    cases hm : evalMatch t r with
    | none => simp [evalFilter, hm]
    | some b =>
      cases hf : evalFilter t rs with
      | none => simp [evalFilter, hm, hf, ← ih]
      | some l => simp [evalFilter, hm, hf, ← ih]

/-- C10: the filtered view evaluates without a TypeError at every
search term exactly when every fetched record carries both a string id
and a string status; hwid alone is guarded, so a missing id or status
makes the filter expression throw at some term and the error branch is
unreachable only under that precondition. -/
theorem c10_filter_totality (L : List RawLicense) :
    (∀ t, (evalFilter t L).isSome = true) ↔
    (∀ r ∈ L, r.id.isSome = true ∧ r.status.isSome = true) := by
  constructor
  · intro hall r hr
    exact (evalMatch_total_iff r).mp
      (fun t => (evalFilter_total_iff t L).mp (hall t) r hr)
  · intro hprec t
    exact (evalFilter_total_iff t L).mpr
      (fun r hr => (evalMatch_total_iff r).mpr (hprec r hr) t)
